import Mathlib

/-!
Verification model of the cinemAIc repository core: the synchronized entity
cache (`js/store.js`), the profile builder (`js/ai.js`), the backfill
reconciliation and recommendation-resolution pipeline (`js/app.js`), and the
response extraction/classification of the `askAI` cloud function
(`functions/index.js`).  Each definition is a shallow embedding of the
corresponding JavaScript, with machine details made explicit: a JS value that
may be `null` is an `Option`, a JS value that distinguishes `undefined` from
`null` is an `Option (Option _)` (outer `none` = `undefined`), async effects
are returned as explicit write descriptions, and exceptions are `Except`.
-/

namespace Cinemaic

/-- The two media categories, `'movie' | 'tv'`. -/
inductive MType where
  | movie
  | tv
deriving DecidableEq

/-- One tracked media item (entity record), as stored in Firestore and in the
in-memory cache.  `releaseDate` is three-state because `backfillMissingData`
tests `i.releaseDate === undefined`: outer `none` models `undefined`,
`some none` models `null`, `some (some s)` a date string.  `tmdbRating` and
`rating` are nullable numbers; `watchedAt` a nullable timestamp.  Descriptive
fields not consulted by any claim (overview, poster, cast, …) are omitted;
they ride along unchanged through the record spreads exactly as the fields
kept here. -/
structure Item where
  tmdbId : Int
  title : String
  year : String
  releaseDate : Option (Option String)
  tmdbRating : Option Int
  genres : List String
  genreIds : List Int
  watched : Bool
  watchedAt : Option Int
  rating : Option Int
  notes : String
  addedAt : Int
deriving DecidableEq

/-- A neutral item to build concrete test items from with record updates. -/
def baseItem : Item :=
  { tmdbId := 0, title := "", year := "", releaseDate := none, tmdbRating := none
    genres := [], genreIds := [], watched := false, watchedAt := none
    rating := none, notes := "", addedAt := 0 }

/-- Module-level mutable state of `js/store.js`: the per-category cache, the
taste-notes profile cache, the bound uid, and the active `onSnapshot`
listeners (modelled by the uid whose collection they listen to, `none` when
torn down / never set). -/
structure StoreState where
  cacheMovie : List Item
  cacheTv : List Item
  tasteNotes : String
  currentUid : Option String
  subMovie : Option String
  subTv : Option String
  subProfile : Option String
deriving DecidableEq

/-- The store state as the module initializes it. -/
def initialStore : StoreState :=
  { cacheMovie := [], cacheTv := [], tasteNotes := "", currentUid := none
    subMovie := none, subTv := none, subProfile := none }

/-- `setUser(uid)` of `js/store.js`: unsubscribe existing listeners, record the
uid; on a null uid clear both caches and the profile cache and return; on a
non-null uid attach one listener per category plus the profile listener. -/
def setUser (s : StoreState) (uid : Option String) : StoreState :=
  let s1 : StoreState :=
    { s with subMovie := none, subTv := none, subProfile := none, currentUid := uid }
  match uid with
  | none => { s1 with cacheMovie := [], cacheTv := [], tasteNotes := "" }
  | some u => { s1 with subMovie := some u, subTv := some u, subProfile := some u }

/-- `getAll(type)` of `js/store.js`: synchronous read of the cached
collection. -/
def getAll (s : StoreState) (mt : MType) : List Item :=
  match mt with
  | .movie => s.cacheMovie
  | .tv => s.cacheTv

/-- Delivery of one `onSnapshot` snapshot for a category: full replacement of
that category's cached collection (`cache[type] = snap.docs.map(d => d.data())`). -/
def applySnapshot (s : StoreState) (mt : MType) (docs : List Item) : StoreState :=
  match mt with
  | .movie => { s with cacheMovie := docs }
  | .tv => { s with cacheTv := docs }

/-- A remote create issued by `addItem`: `setDoc(doc(db, 'users', uid, type,
String(tmdbId)), payload)`. -/
structure CreateOp where
  uid : String
  mt : MType
  docId : Int
  payload : Item
deriving DecidableEq

/-- `addItem(type, item)` of `js/store.js`.  Returns the JS boolean result, the
remote create issued (if any), and the store state after the call — the
function never touches the cache, so the state component records that the
cache changes only when a snapshot later arrives.  The created document is the
spread `...item` with `addedAt` set to the current time and `watched`,
`rating`, `notes` re-initialized. -/
def addItem (s : StoreState) (now : Int) (mt : MType) (item : Item) :
    Bool × Option CreateOp × StoreState :=
  match s.currentUid with
  | none => (false, none, s)
  | some uid =>
    match (getAll s mt).find? (fun i => i.tmdbId = item.tmdbId) with
    | some _ => (false, none, s)
    | none =>
      (true,
       some { uid := uid, mt := mt, docId := item.tmdbId
              payload := { item with addedAt := now, watched := false
                                     rating := none, notes := "" } },
       s)

/-- The slice of a normalized catalog detail record (`getMovieDetails` /
`getTVDetails` of `js/tmdb.js`) read by the backfill:  `tmdbRating` nullable,
`genres`/`genreIds` lists, `releaseDate` three-state as in `Item`. -/
structure Details where
  tmdbRating : Option Int
  genres : List String
  genreIds : List Int
  releaseDate : Option (Option String)
deriving DecidableEq

/-- A partial update passed to `patchItem` / `updateDoc`: `none` means the key
is absent from the update object, `some v` that the key is set to `v`. -/
structure Updates where
  tmdbRating : Option Int
  genres : Option (List String)
  genreIds : Option (List Int)
  releaseDate : Option (Option String)
deriving DecidableEq

/-- The update object built by `backfillMissingData` from a fetched detail
record: `tmdbRating` when non-null, `genres`/`genreIds` when non-empty,
`releaseDate` when not `undefined` (with `?? null` collapsing to null, i.e.
the inner option is kept as is). -/
def computeUpdates (d : Details) : Updates :=
  { tmdbRating := d.tmdbRating
    genres := if d.genres.isEmpty then none else some d.genres
    genreIds := if d.genreIds.isEmpty then none else some d.genreIds
    releaseDate := d.releaseDate }

/-- `Object.keys(updates).length` is zero. -/
def updatesEmpty (u : Updates) : Bool :=
  u.tmdbRating.isNone && u.genres.isNone && u.genreIds.isNone && u.releaseDate.isNone

/-- `updateDoc` semantics of applying a partial update to a document: each key
present in the update object overwrites that field, all other fields keep
their value. -/
def applyUpdates (i : Item) (u : Updates) : Item :=
  { i with
    tmdbRating := match u.tmdbRating with | some v => some v | none => i.tmdbRating
    genres := u.genres.getD i.genres
    genreIds := u.genreIds.getD i.genreIds
    releaseDate := match u.releaseDate with | some x => some x | none => i.releaseDate }

/-- The selection predicate of `backfillMissingData`: `i.tmdbRating == null ||
!i.genres?.length || i.releaseDate === undefined || !i.genreIds?.length`. -/
def needsBackfill (i : Item) : Bool :=
  i.tmdbRating.isNone || i.genres.isEmpty || i.releaseDate.isNone || i.genreIds.isEmpty

/-- Effect of one loop iteration of `backfillMissingData` on the record it
processes: fetch the catalog detail (`Except.error` models a thrown fetch,
swallowed by the empty `catch`), build the update object, and patch the
document when the update object is non-empty.  Items failing the selection
predicate are not processed at all. -/
def backfillStep (fetch : Int → Except Unit Details) (i : Item) : Item :=
  if needsBackfill i then
    match fetch i.tmdbId with
    | .error _ => i
    | .ok d =>
      let u := computeUpdates d
      if updatesEmpty u then i else applyUpdates i u
  else i

/-- The whole backfill pass over one category's collection, as reflected in the
store once every issued patch has echoed back: each `patchItem(type,
item.tmdbId, updates)` targets the Firestore document keyed by that item's id,
so each record receives exactly the updates computed for it. -/
def backfillRun (fetch : Int → Except Unit Details) (items : List Item) : List Item :=
  items.map (backfillStep fetch)

/-- JS `i.rating >= 4` where `rating` is a number or null: null coerces to 0,
so it holds exactly when a number `>= 4` is present. -/
def ratingGE4 (r : Option Int) : Bool :=
  match r with
  | some v => decide (4 ≤ v)
  | none => false

/-- JS `!i.rating`: true for null (and for the number 0, which is falsy). -/
def ratingFalsy (r : Option Int) : Bool :=
  match r with
  | some v => decide (v = 0)
  | none => true

/-- JS `i.rating || 3`: the rating if truthy, otherwise the default weight 3. -/
def ratingWeight (r : Option Int) : Int :=
  match r with
  | some v => if v = 0 then 3 else v
  | none => 3

/-- `items.filter(i => i.watched)` of `buildTasteProfile`. -/
def watchedOf (items : List Item) : List Item :=
  items.filter (fun i => i.watched)

/-- The items selected into `loved`: `watched.filter(i => i.rating >= 4)`. -/
def lovedItems (items : List Item) : List Item :=
  (watchedOf items).filter (fun i => ratingGE4 i.rating)

/-- An entry of the `loved` list: title, year, genres, stars, and the notes key
only when the notes string is truthy (non-empty). -/
structure LovedEntry where
  title : String
  year : String
  genres : List String
  stars : Option Int
  notes : Option String
deriving DecidableEq

/-- The projection applied to each loved item. -/
def lovedEntryOf (i : Item) : LovedEntry :=
  { title := i.title, year := i.year, genres := i.genres, stars := i.rating
    notes := if i.notes = "" then none else some i.notes }

/-- `loved` of `buildTasteProfile`. -/
def loved (items : List Item) : List LovedEntry :=
  (lovedItems items).map lovedEntryOf

/-- The items selected into `liked`: `watched.filter(i => i.rating === 3)`. -/
def likedItems (items : List Item) : List Item :=
  (watchedOf items).filter (fun i => i.rating = some 3)

/-- An entry of the `liked` list: title and genres. -/
structure LikedEntry where
  title : String
  genres : List String
deriving DecidableEq

/-- `liked` of `buildTasteProfile`. -/
def liked (items : List Item) : List LikedEntry :=
  (likedItems items).map (fun i => { title := i.title, genres := i.genres })

/-- The items selected into `watchedUnrated`: `watched.filter(i => !i.rating)`. -/
def unratedItems (items : List Item) : List Item :=
  (watchedOf items).filter (fun i => ratingFalsy i.rating)

/-- `watchedUnrated` of `buildTasteProfile`: titles of watched items whose
rating is falsy. -/
def watchedUnrated (items : List Item) : List String :=
  (unratedItems items).map (fun i => i.title)

/-- `watchlist` of `buildTasteProfile`: titles of unwatched items. -/
def watchlist (items : List Item) : List String :=
  (items.filter (fun i => !i.watched)).map (fun i => i.title)

/-- The stream of `(genre, weight)` contributions produced by the nested
`watched.forEach(i => (i.genres || []).forEach(g => ...))` loops, in loop
order. -/
def genrePairs (items : List Item) : List (String × Int) :=
  (watchedOf items).flatMap (fun i => i.genres.map (fun g => (g, ratingWeight i.rating)))

/-- One `genreScore[g] = (genreScore[g] || 0) + weight` step on the score
object, modelled as an association list in key-insertion order: update the
existing entry in place, or append a fresh key at the end. -/
def bump (acc : List (String × Int)) (g : String) (w : Int) : List (String × Int) :=
  match acc with
  | [] => [(g, w)]
  | (g', v) :: rest => if g' = g then (g', v + w) :: rest else (g', v) :: bump rest g w

/-- The `genreScore` object after the accumulation loops, as
`Object.entries` enumerates it (insertion order). -/
def genreScoreList (items : List Item) : List (String × Int) :=
  (genrePairs items).foldl (fun acc p => bump acc p.1 p.2) []

/-- One step of the stable descending insertion of a scored genre: keep
sliding right past strictly greater scores, and land before the first entry
whose score is less than or equal — so of two equal scores the earlier input
entry stays first.  This is `Array.prototype.sort` (stable) with comparator
`(a, b) => b[1] - a[1]`. -/
def insertDesc (x : String × Int) : List (String × Int) → List (String × Int)
  | [] => [x]
  | y :: ys => if x.2 < y.2 then y :: insertDesc x ys else x :: y :: ys

/-- Stable descending-by-score sort of the score entries. -/
def sortDesc : List (String × Int) → List (String × Int)
  | [] => []
  | x :: xs => insertDesc x (sortDesc xs)

/-- `topGenres` of `buildTasteProfile`: entries sorted by descending score,
first 8, genre names only. -/
def topGenres (items : List Item) : List String :=
  ((sortDesc (genreScoreList items)).take 8).map Prod.fst

/-- The taste profile returned by `buildTasteProfile`; `personalNotes` is
present only when the trimmed notes string is non-empty. -/
structure TasteProfile where
  loved : List LovedEntry
  liked : List LikedEntry
  watchedUnrated : List String
  watchlist : List String
  topGenres : List String
  personalNotes : Option String
deriving DecidableEq

/-- `buildTasteProfile(items, tasteNotes)` of `js/ai.js`. -/
def buildTasteProfile (items : List Item) (tasteNotes : String) : TasteProfile :=
  { loved := loved items, liked := liked items
    watchedUnrated := watchedUnrated items, watchlist := watchlist items
    topGenres := topGenres items
    personalNotes := if tasteNotes.trim = "" then none else some tasteNotes.trim }

/-- The weight the specification assigns an item in genre scoring: its rating,
or 3 when it has none. -/
def specWeight (r : Option Int) : Int :=
  match r with
  | some v => v
  | none => 3

/-- The score the specification assigns a genre: the sum, over every watched
item carrying that genre, of that item's weight. -/
def specScore (g : String) (items : List Item) : Int :=
  (((watchedOf items).filter (fun i => g ∈ i.genres)).map (fun i => specWeight i.rating)).sum

/-- First-occurrence deduplication of a key stream, skipping keys already
seen. -/
def firstSeen (seen : List String) : List String → List String
  | [] => []
  | g :: gs => if g ∈ seen then firstSeen seen gs else g :: firstSeen (g :: seen) gs

/-- Sum of the weights attached to one key in a pair stream. -/
def sumKey (g : String) (pairs : List (String × Int)) : Int :=
  ((pairs.filter (fun p => p.1 = g)).map Prod.snd).sum

/-- The association list the specification describes: genre names in
first-seen order among watched items, each with the score the specification
assigns it. -/
def specAssoc (items : List Item) : List (String × Int) :=
  (firstSeen [] ((genrePairs items).map Prod.fst)).map
    (fun g => (g, specScore g items))

/-- The value of the genre-score accumulation continued from an intermediate
table `acc`: every existing entry grows by that key's remaining contributions,
and the keys not yet seen follow in first-seen order with their accumulated
scores. -/
def combineAcc (acc pairs : List (String × Int)) : List (String × Int) :=
  acc.map (fun q => (q.1, q.2 + sumKey q.1 pairs)) ++
    (firstSeen (acc.map Prod.fst) (pairs.map Prod.fst)).map (fun g => (g, sumKey g pairs))

/-- The opening brace character. -/
def braceOpen : Char := Char.ofNat 123

/-- The closing brace character. -/
def braceClose : Char := Char.ofNat 125

/-- A JSON value, the result type of the platform `JSON.parse`. -/
inductive JVal where
  | jnull
  | jbool (b : Bool)
  | jnum (n : Int)
  | jstr (s : String)
  | jarr (elems : List JVal)
  | jobj (fields : List (String × JVal))

/-- Skip JSON whitespace. -/
def skipWs : List Char → List Char
  | [] => []
  | c :: cs => if c = ' ' || c = '\n' || c = '\t' || c = '\r' then skipWs cs else c :: cs

/-- Read a JSON string body after the opening quote, up to the closing quote.
Escape sequences are outside the modelled subset and fail the parse. -/
def readStringLit : List Char → Option (String × List Char)
  | [] => none
  | c :: cs =>
    if c = '"' then some ("", cs)
    else if c = '\\' then none
    else
      match readStringLit cs with
      | some (s, rest) => some (String.mk (c :: s.data), rest)
      | none => none

/-- Read a maximal run of decimal digits. -/
def readDigits : List Char → List Nat × List Char
  | [] => ([], [])
  | c :: cs =>
    if c.isDigit then
      let (ds, rest) := readDigits cs
      ((c.toNat - 48) :: ds, rest)
    else ([], c :: cs)

/-- Decimal digits to a natural number. -/
def digitsToNat (ds : List Nat) : Nat :=
  ds.foldl (fun a d => a * 10 + d) 0

/-- Read a JSON integer (optional minus sign, digits).  Fractions and
exponents are outside the modelled subset. -/
def readNum : List Char → Option (Int × List Char)
  | [] => none
  | c :: cs =>
    if c = '-' then
      match readDigits cs with
      | ([], _) => none
      | (ds, rest) => some (-(digitsToNat ds : Int), rest)
    else
      match readDigits (c :: cs) with
      | ([], _) => none
      | (ds, rest) => some ((digitsToNat ds : Int), rest)

/-- Consume an expected literal token. -/
def stripToken : List Char → List Char → Option (List Char)
  | [], rest => some rest
  | _ :: _, [] => none
  | t :: ts, c :: cs => if c = t then stripToken ts cs else none

mutual

/-- Parse one JSON value, fuel-bounded. -/
def parseVal : Nat → List Char → Option (JVal × List Char)
  | 0, _ => none
  | Nat.succ f, cs =>
    match skipWs cs with
    | [] => none
    | c :: rest =>
      if c = braceOpen then parseObj f rest
      else if c = '[' then parseArr f rest
      else if c = '"' then
        match readStringLit rest with
        | some (s, r) => some (.jstr s, r)
        | none => none
      else if c = 'n' then (stripToken ['u', 'l', 'l'] rest).map (fun r => (JVal.jnull, r))
      else if c = 't' then (stripToken ['r', 'u', 'e'] rest).map (fun r => (JVal.jbool true, r))
      else if c = 'f' then
        (stripToken ['a', 'l', 's', 'e'] rest).map (fun r => (JVal.jbool false, r))
      else
        match readNum (c :: rest) with
        | some (n, r) => some (.jnum n, r)
        | none => none

/-- Parse an object body after the opening brace. -/
def parseObj : Nat → List Char → Option (JVal × List Char)
  | 0, _ => none
  | Nat.succ f, cs =>
    match skipWs cs with
    | [] => none
    | c :: rest =>
      if c = braceClose then some (.jobj [], rest) else parseFields f (c :: rest) []

/-- Parse the `"key": value` field list of an object body. -/
def parseFields : Nat → List Char → List (String × JVal) → Option (JVal × List Char)
  | 0, _, _ => none
  | Nat.succ f, cs, acc =>
    match skipWs cs with
    | '"' :: rest =>
      match readStringLit rest with
      | none => none
      | some (k, r1) =>
        match skipWs r1 with
        | ':' :: r2 =>
          match parseVal f r2 with
          | none => none
          | some (v, r3) =>
            match skipWs r3 with
            | [] => none
            | ',' :: r4 => parseFields f r4 (acc ++ [(k, v)])
            | c :: r4 =>
              if c = braceClose then some (.jobj (acc ++ [(k, v)]), r4) else none
        | _ => none
    | _ => none

/-- Parse an array body after the opening bracket. -/
def parseArr : Nat → List Char → Option (JVal × List Char)
  | 0, _ => none
  | Nat.succ f, cs =>
    match skipWs cs with
    | ']' :: rest => some (.jarr [], rest)
    | _ => parseElems f cs []

/-- Parse the element list of a non-empty array body. -/
def parseElems : Nat → List Char → List JVal → Option (JVal × List Char)
  | 0, _, _ => none
  | Nat.succ f, cs, acc =>
    match parseVal f cs with
    | none => none
    | some (v, r) =>
      match skipWs r with
      | ',' :: r2 => parseElems f r2 (acc ++ [v])
      | ']' :: r2 => some (.jarr (acc ++ [v]), r2)
      | _ => none

end

/-- Model of the platform `JSON.parse` (an external collaborator of the
repository) on the JSON subset the pipeline exchanges: `none` models a thrown
`SyntaxError`. -/
def jsonParse (s : String) : Option JVal :=
  match parseVal (s.data.length + 16) s.data with
  | some (v, rest) => if (skipWs rest).isEmpty then some v else none
  | none => none

/-- JS property access `v.k` on a parsed JSON value: defined keys of objects,
`undefined` (`none`) otherwise. -/
def jGet (v : JVal) (k : String) : Option JVal :=
  match v with
  | .jobj fields => fields.lookup k
  | _ => none

/-- JS truthiness of a parsed JSON value. -/
def truthy : JVal → Bool
  | .jnull => false
  | .jbool b => b
  | .jnum n => decide (n ≠ 0)
  | .jstr s => decide (s ≠ "")
  | .jarr _ => true
  | .jobj _ => true

/-- JS `v.k || dflt`. -/
def jGetOr (v : JVal) (k : String) (dflt : JVal) : JVal :=
  match jGet v k with
  | some w => if truthy w then w else dflt
  | none => dflt

/-- The errors the `askAI` cloud function can throw past extraction:
`malformedResponse` is `HttpsError('internal', 'Unexpected AI response
format.')`, `unrecognizedType` is `HttpsError('internal', 'Unexpected AI
response type.')`, and `requestFailed` is the generic catch-all
`HttpsError('internal', 'AI request failed.')` produced when a non-`HttpsError`
exception (such as a `JSON.parse` failure) reaches the outer catch. -/
inductive AIErr where
  | malformedResponse
  | unrecognizedType
  | requestFailed
deriving DecidableEq

/-- The value `askAI` returns on success: a recommendations envelope or an
answer envelope. -/
inductive AIResp where
  | recommendations (items : JVal)
  | answer (heading text : JVal)

/-- The brace-span extraction `raw.match(/\x7b[\s\S]*\x7d/)`: the substring
from the first opening brace through the last closing brace, if the latter
comes after the former. -/
def extractBraces (s : String) : Option String :=
  let t := ((s.data.dropWhile (fun c => c ≠ braceOpen)).reverse.dropWhile
    (fun c => c ≠ braceClose)).reverse
  if t.isEmpty then none else some (String.mk t)

/-- JS strict equality `v.type === s` for a string literal `s`: the `type`
property is a string with exactly that value. -/
def typeIs (parsed : JVal) (s : String) : Bool :=
  match jGet parsed "type" with
  | some (.jstr t) => t = s
  | _ => false

/-- The classification step of `askAI`: dispatch on `parsed.type`, defaulting
missing `items` to an empty array and missing `heading`/`text` to empty
strings. -/
def classify (parsed : JVal) : Except AIErr AIResp :=
  if typeIs parsed "recommendations" then
    .ok (.recommendations (jGetOr parsed "items" (.jarr [])))
  else if typeIs parsed "answer" then
    .ok (.answer (jGetOr parsed "heading" (.jstr "")) (jGetOr parsed "text" (.jstr "")))
  else
    .error .unrecognizedType

/-- Processing of the raw model text in `askAI`, from extraction to
classification.  A missing brace span throws the malformed-response error
inside the try block; a `JSON.parse` failure throws a `SyntaxError`, which the
outer catch converts to the generic request-failed error. -/
def askAIProcess (raw : String) : Except AIErr AIResp :=
  match extractBraces raw with
  | none => .error .malformedResponse
  | some s =>
    match jsonParse s with
    | none => .error .requestFailed
    | some parsed => classify parsed

/-- `message.content[0]?.text || '\x7b\x7d'`: the raw response text drawn from
the generation message, one `Option String` per content block (the block's
optional text). -/
def rawOf (content : List (Option String)) : String :=
  match content.head? with
  | some (some s) => if s = "" then "\x7b\x7d" else s
  | some none => "\x7b\x7d"
  | none => "\x7b\x7d"

/-- The full response handling of `askAI` from the generation message's
content blocks. -/
def askAIFromContent (content : List (Option String)) : Except AIErr AIResp :=
  askAIProcess (rawOf content)

/-- A normalized catalog search result, as returned by `searchMovies` /
`searchTV` of `js/tmdb.js` (fields beyond those consulted by the pipeline are
omitted). -/
structure CatalogHit where
  tmdbId : Int
  title : String
deriving DecidableEq

/-- One recommendation pick returned by the generator: title, category label,
reason. -/
structure Pick where
  title : String
  mtype : String
  reason : String
deriving DecidableEq

/-- A pick after catalog resolution: the spread `...pick` plus the resolved
`tmdbItem`, null when the search returned nothing or threw. -/
structure ResolvedPick where
  title : String
  mtype : String
  reason : String
  tmdbItem : Option CatalogHit
deriving DecidableEq

/-- Resolution of one pick in `submitAIPrompt` of `js/app.js`: search the
catalog by the pick's title (`Except.error` models a thrown search), then
attach `results[0] || null`. -/
def resolveOne (search : String → Except Unit (List CatalogHit)) (p : Pick) :
    ResolvedPick :=
  match search p.title with
  | .error _ => { title := p.title, mtype := p.mtype, reason := p.reason, tmdbItem := none }
  | .ok results =>
    { title := p.title, mtype := p.mtype, reason := p.reason, tmdbItem := results.head? }

/-- The `Promise.all((response.items || []).map(...))` resolution loop: every
pick is resolved independently by its own search, and the resolved list keeps
the generator's order. -/
def resolvePicks (search : String → Except Unit (List CatalogHit)) (picks : List Pick) :
    List ResolvedPick :=
  picks.map (resolveOne search)

/-- The ternary `state.mediaType === 'movie' ? searchMovies : searchTV`:
the single search function used for every pick is the one querying the
requested category's catalog endpoint. -/
def searchFnFor (searchMoviesFn searchTVFn : String → Except Unit (List CatalogHit))
    (mt : MType) : String → Except Unit (List CatalogHit) :=
  match mt with
  | .movie => searchMoviesFn
  | .tv => searchTVFn

/-! ## Concrete instances used by counterexamples and witnesses -/

/-- A store state holding one cached movie for a signed-in user. -/
def c1State : StoreState :=
  { initialStore with
    cacheMovie := [{ baseItem with tmdbId := 1, title := "Alien" }]
    currentUid := some "u1", subMovie := some "u1", subTv := some "u1"
    subProfile := some "u1" }

/-! ## C1 -/

/-- C1: the claim asserts that `setUser` clears all local collections for a
non-null identity as well.  It does not: binding the identity `"u2"` over a
state whose movie cache is non-empty leaves that cache non-empty until a
snapshot arrives. -/
theorem setUser_nonnull_keeps_cache :
    getAll (setUser c1State (some "u2")) MType.movie ≠ [] := by
  decide

/-- C1 (amended): immediately after `bind(u)` and before any snapshot,
`all(C)` is empty for every category when `u` is null; for a non-null
identity, every category's collection is exactly what it was before the call
— `setUser` clears the caches only in its null branch. -/
theorem setUser_cache_spec :
    ∀ (s : StoreState) (u : String) (c : MType),
      getAll (setUser s none) c = [] ∧ getAll (setUser s (some u)) c = getAll s c := by
  intro s u c
  cases c <;> simp [getAll, setUser]

/-! ## C2 -/

/-- C2: `addItem` returns false, issues no create and leaves the store
untouched when no identity is bound or when the id is already cached;
otherwise it returns true and issues exactly one create whose payload is the
candidate's fields with `watched := false`, `rating := null`, `notes := ""`
and `addedAt := now`, still leaving the store (hence the cache) untouched. -/
theorem addItem_spec (s : StoreState) (now : Int) (mt : MType) (e : Item) :
    (s.currentUid = none → addItem s now mt e = (false, none, s))
    ∧ ((∃ i ∈ getAll s mt, i.tmdbId = e.tmdbId) → addItem s now mt e = (false, none, s))
    ∧ (∀ uid, s.currentUid = some uid → (∀ i ∈ getAll s mt, i.tmdbId ≠ e.tmdbId) →
        addItem s now mt e =
          (true,
           some { uid := uid, mt := mt, docId := e.tmdbId
                  payload := { e with addedAt := now, watched := false
                                      rating := none, notes := "" } },
           s)) := by
  refine ⟨fun h => ?_, fun h => ?_, fun uid h hno => ?_⟩
  · simp [addItem, h]
  · rcases h with ⟨i, hi, hid⟩
    cases huid : s.currentUid with
    | none => simp [addItem, huid]
    | some uid =>
      have hsome : ((getAll s mt).find? (fun i => i.tmdbId = e.tmdbId)).isSome := by
        rw [List.find?_isSome]
        exact ⟨i, hi, by simp [hid]⟩
      rcases Option.isSome_iff_exists.mp hsome with ⟨j, hj⟩
      simp [addItem, huid, hj]
  · have hnone : (getAll s mt).find? (fun i => i.tmdbId = e.tmdbId) = none := by
      rw [List.find?_eq_none]
      intro i hi
      simpa using hno i hi
    simp [addItem, h, hnone]

/-- C2 witness: a signed-in store with an empty cache accepts a fresh item and
issues the initialized create. -/
theorem addItem_spec_witness :
    addItem { initialStore with currentUid := some "u" } 5 MType.movie
        { baseItem with tmdbId := 7, title := "Heat" } =
      (true,
       some { uid := "u", mt := MType.movie, docId := 7
              payload := { baseItem with tmdbId := 7, title := "Heat", addedAt := 5 } },
       { initialStore with currentUid := some "u" }) :=
  (addItem_spec { initialStore with currentUid := some "u" } 5 MType.movie
      { baseItem with tmdbId := 7, title := "Heat" }).2.2 "u" rfl
    (by simp [getAll, initialStore])

/-! ## C3 -/

/-- C3: the backfill pass never patches a user-owned field — after it
completes, `watched`, `watchedAt`, `rating` and `notes` of every record equal
their values before, whatever the catalog detail fetch returned. -/
theorem backfill_preserves_user_fields :
    ∀ (fetch : Int → Except Unit Details) (items : List Item),
      (backfillRun fetch items).map (fun i => (i.watched, i.watchedAt, i.rating, i.notes)) =
        items.map (fun i => (i.watched, i.watchedAt, i.rating, i.notes)) := by
  intro fetch items
  unfold backfillRun
  rw [List.map_map]
  apply List.map_congr_left
  intro i _
  simp only [Function.comp]
  unfold backfillStep
  split
  · cases fetch i.tmdbId with
    | error e => rfl
    | ok d =>
      simp only
      split
      · rfl
      · rfl
  · rfl

/-! ## C10 -/

/-- C10: a generation message whose first content block is absent or carries
no text is substituted by the literal two-brace object string, which parses to
an object with no `type` field, so the request fails with the
unrecognized-response-type error, not the malformed-response error. -/
theorem askAI_empty_content_spec :
    ∀ content : List (Option String),
      (content.head? = none ∨ content.head? = some none ∨ content.head? = some (some "")) →
        rawOf content = "\x7b\x7d" ∧
        askAIFromContent content = .error .unrecognizedType ∧
        AIErr.unrecognizedType ≠ AIErr.malformedResponse := by
  intro content h
  have hraw : rawOf content = "\x7b\x7d" := by
    rcases h with h | h | h <;> simp [rawOf, h]
  refine ⟨hraw, ?_, by decide⟩
  unfold askAIFromContent
  rw [hraw]
  rfl

/-- C10 witness: an empty content block list. -/
theorem askAI_empty_content_spec_witness :
    rawOf [] = "\x7b\x7d" ∧
    askAIFromContent [] = .error .unrecognizedType ∧
    AIErr.unrecognizedType ≠ AIErr.malformedResponse :=
  askAI_empty_content_spec [] (Or.inl rfl)

/-! ## C7 -/

/-- Five picks as in the specification's resolution-independence example. -/
def exPicks : List Pick :=
  [{ title := "P1", mtype := "movie", reason := "r1" },
   { title := "P2", mtype := "movie", reason := "r2" },
   { title := "P3", mtype := "movie", reason := "r3" },
   { title := "P4", mtype := "movie", reason := "r4" },
   { title := "P5", mtype := "movie", reason := "r5" }]

/-- A search that throws on the second pick's title and finds one hit for
every other title. -/
def exSearch : String → Except Unit (List CatalogHit) :=
  fun t => if t = "P2" then .error () else .ok [{ tmdbId := 1, title := t }]

/-- C7: resolution is an independent per-pick map — the output list has one
entry per pick in the generator's order, each depending only on its own pick's
search; a thrown search resolves that pick to a null item, a successful search
to its first result or null when empty; and in the concrete five-pick
scenario, pick 2 failing leaves picks 1,3,4,5 resolved. -/
theorem resolvePicks_spec :
    ∀ (search : String → Except Unit (List CatalogHit)) (picks : List Pick),
      ((resolvePicks search picks).length = picks.length)
      ∧ (∀ (i : Nat) (hi : i < picks.length) (ho : i < (resolvePicks search picks).length),
          (resolvePicks search picks).get ⟨i, ho⟩ = resolveOne search (picks.get ⟨i, hi⟩))
      ∧ (∀ p : Pick, search p.title = .error () →
          resolveOne search p =
            { title := p.title, mtype := p.mtype, reason := p.reason, tmdbItem := none })
      ∧ (∀ (p : Pick) (results : List CatalogHit), search p.title = .ok results →
          resolveOne search p =
            { title := p.title, mtype := p.mtype, reason := p.reason, tmdbItem := results.head? })
      ∧ resolvePicks exSearch exPicks =
          [{ title := "P1", mtype := "movie", reason := "r1"
             tmdbItem := some { tmdbId := 1, title := "P1" } },
           { title := "P2", mtype := "movie", reason := "r2", tmdbItem := none },
           { title := "P3", mtype := "movie", reason := "r3"
             tmdbItem := some { tmdbId := 1, title := "P3" } },
           { title := "P4", mtype := "movie", reason := "r4"
             tmdbItem := some { tmdbId := 1, title := "P4" } },
           { title := "P5", mtype := "movie", reason := "r5"
             tmdbItem := some { tmdbId := 1, title := "P5" } }] := by
  intro search picks
  refine ⟨?_, ?_, ?_, ?_, ?_⟩
  · simp [resolvePicks]
  · intro i hi ho
    simp [resolvePicks]
  · intro p h
    simp [resolveOne, h]
  · intro p results h
    simp [resolveOne, h]
  · decide

/-- C7 witness: the length equation at the concrete five-pick scenario. -/
theorem resolvePicks_spec_witness :
    (resolvePicks exSearch exPicks).length = exPicks.length :=
  (resolvePicks_spec exSearch exPicks).1

/-! ## C5 -/

/-- Dropping while a predicate holds skips a prefix on which it always
holds. -/
theorem dropWhile_append_of_all {α : Type} (p : α → Bool) (l₁ l₂ : List α)
    (h : ∀ x ∈ l₁, p x = true) :
    List.dropWhile p (l₁ ++ l₂) = List.dropWhile p l₂ := by
  induction l₁ with
  | nil => rfl
  | cons a l ih =>
    simp only [List.cons_append, List.dropWhile_cons]
    rw [h a (by simp)]
    exact ih (fun x hx => h x (by simp [hx]))

/-- C5: the claim is wrong about one branch.  What holds: extraction takes the
substring from the first opening brace through the last closing brace; a text
with no opening brace fails with the malformed-response error; but a span that
fails to parse surfaces as the generic request-failed error, distinct from the
malformed-response error; classification accepts `recommendations` with
missing items as an empty list and `answer` with missing heading/text as empty
strings, and rejects any other type value with the unrecognized-type error;
and the three concrete examples classify accordingly. -/
theorem askAI_extraction_spec :
    (∀ pre mid post : List Char, braceOpen ∉ pre → braceClose ∉ post →
      extractBraces (String.mk (pre ++ braceOpen :: (mid ++ braceClose :: post))) =
        some (String.mk (braceOpen :: (mid ++ [braceClose]))))
    ∧ (∀ s : String, braceOpen ∉ s.data → askAIProcess s = .error .malformedResponse)
    ∧ (∀ s t, extractBraces s = some t → jsonParse t = none →
        askAIProcess s = .error .requestFailed)
    ∧ (∀ fields : List (String × JVal),
        fields.lookup "type" = some (JVal.jstr "recommendations") →
        fields.lookup "items" = none →
        classify (.jobj fields) = .ok (.recommendations (.jarr [])))
    ∧ (∀ fields : List (String × JVal),
        fields.lookup "type" = some (JVal.jstr "answer") →
        fields.lookup "heading" = none → fields.lookup "text" = none →
        classify (.jobj fields) = .ok (.answer (.jstr "") (.jstr "")))
    ∧ (∀ v : JVal, typeIs v "recommendations" = false → typeIs v "answer" = false →
        classify v = .error .unrecognizedType)
    ∧ askAIProcess "foo \x7b\"type\":\"answer\",\"heading\":\"H\",\"text\":\"T\"\x7d bar" =
        .ok (.answer (.jstr "H") (.jstr "T"))
    ∧ askAIProcess "no json here" = .error .malformedResponse
    ∧ askAIProcess "\x7b\"type\":\"weird\"\x7d" = .error .unrecognizedType := by
  refine ⟨?_, ?_, ?_, ?_, ?_, ?_, rfl, rfl, rfl⟩
  · intro pre mid post h1 h2
    have hpre : ∀ x ∈ pre, (fun c => decide (c ≠ braceOpen)) x = true := by
      intro x hx
      simp only [decide_eq_true_eq]
      exact fun he => h1 (he ▸ hx)
    have e1 : List.dropWhile (fun c => decide (c ≠ braceOpen))
        (pre ++ braceOpen :: (mid ++ braceClose :: post)) =
        braceOpen :: (mid ++ braceClose :: post) := by
      rw [dropWhile_append_of_all _ _ _ hpre]
      simp [List.dropWhile_cons]
    have e2 : (braceOpen :: (mid ++ braceClose :: post)).reverse =
        post.reverse ++ braceClose :: (mid.reverse ++ [braceOpen]) := by
      simp
    have hpost : ∀ x ∈ post.reverse, (fun c => decide (c ≠ braceClose)) x = true := by
      intro x hx
      simp only [decide_eq_true_eq]
      exact fun he => h2 (he ▸ (List.mem_reverse.mp hx))
    have e3 : List.dropWhile (fun c => decide (c ≠ braceClose))
        (post.reverse ++ braceClose :: (mid.reverse ++ [braceOpen])) =
        braceClose :: (mid.reverse ++ [braceOpen]) := by
      rw [dropWhile_append_of_all _ _ _ hpost]
      simp [List.dropWhile_cons]
    simp only [extractBraces, e1, e2, e3]
    simp
  · intro s h
    have hall : ∀ x ∈ s.data, (fun c => decide (c ≠ braceOpen)) x = true := by
      intro x hx
      simp only [decide_eq_true_eq]
      exact fun he => h (he ▸ hx)
    have e0 : List.dropWhile (fun c => decide (c ≠ braceOpen)) s.data = [] := by
      have h2 := dropWhile_append_of_all (fun c => decide (c ≠ braceOpen)) s.data [] hall
      simpa using h2
    have hnone : extractBraces s = none := by
      simp only [extractBraces, e0]
      rfl
    simp [askAIProcess, hnone]
  · intro s t h1 h2
    simp [askAIProcess, h1, h2]
  · intro fields h1 h2
    simp [classify, typeIs, jGet, jGetOr, h1, h2]
  · intro fields h1 h2 h3
    simp [classify, typeIs, jGet, jGetOr, h1, h2, h3]
  · intro v h1 h2
    simp [classify, h1, h2]

/-- C5 witness: the concrete prose-wrapped answer envelope from the claim. -/
theorem askAI_extraction_spec_witness :
    askAIProcess "foo \x7b\"type\":\"answer\",\"heading\":\"H\",\"text\":\"T\"\x7d bar" =
      .ok (.answer (.jstr "H") (.jstr "T")) :=
  askAI_extraction_spec.2.2.2.2.2.2.1

/-- C5 counterexample: a brace span that fails to parse makes the request fail
with the generic request-failed error, not the malformed-response error the
claim asserts. -/
theorem askAI_parse_failure_not_malformed :
    askAIProcess "\x7boops\x7d" = .error .requestFailed ∧
    AIErr.requestFailed ≠ AIErr.malformedResponse :=
  ⟨rfl, by decide⟩

/-! ## C6 -/

/-- C6: the partition of the profile buckets.  `loved` projects exactly the
watched items with a rating of at least 4, `liked` exactly the watched items
rated exactly 3, `watchedUnrated` is exactly the titles of watched items with
no rating, `watchlist` exactly the titles of unwatched items, and a watched
item rated 1 or 2 lands in none of the three watched buckets.  The rating
hypothesis records the data-model invariant that ratings are null or 1–5 (the
number 0, which JS treats as falsy, never occurs). -/
theorem tasteProfile_buckets_spec (items : List Item)
    (h : ∀ i ∈ items, i.rating ≠ some 0) :
    (loved items = (lovedItems items).map lovedEntryOf)
    ∧ (∀ i : Item, i ∈ lovedItems items ↔
        i ∈ items ∧ i.watched = true ∧ ∃ v, i.rating = some v ∧ 4 ≤ v)
    ∧ (∀ i : Item, i ∈ likedItems items ↔
        i ∈ items ∧ i.watched = true ∧ i.rating = some 3)
    ∧ (watchedUnrated items =
        (items.filter (fun i => i.watched && i.rating.isNone)).map (fun i => i.title))
    ∧ (watchlist items =
        (items.filter (fun i => i.watched = false)).map (fun i => i.title))
    ∧ (∀ i ∈ items, i.watched = true → (i.rating = some 1 ∨ i.rating = some 2) →
        i ∉ lovedItems items ∧ i ∉ likedItems items ∧ i ∉ unratedItems items) := by
  refine ⟨rfl, ?_, ?_, ?_, ?_, ?_⟩
  · intro i
    simp only [lovedItems, watchedOf, List.mem_filter, and_assoc]
    have hiff : ratingGE4 i.rating = true ↔ ∃ v, i.rating = some v ∧ 4 ≤ v := by
      cases hr : i.rating <;> simp [ratingGE4, hr]
    rw [hiff]
  · intro i
    simp only [likedItems, watchedOf, List.mem_filter, and_assoc]
    simp
  · unfold watchedUnrated unratedItems watchedOf
    rw [List.filter_filter]
    apply congrArg
    apply List.filter_congr
    intro i hi
    have hne := h i hi
    cases hr : i.rating <;> simp [ratingFalsy, hr] <;>
      simp [hr] at hne <;> simp [hne]
  · unfold watchlist
    apply congrArg
    apply List.filter_congr
    intro i _
    cases hw : i.watched <;> simp [hw]
  · intro i hi hw hr
    rcases hr with hr | hr <;>
      simp [lovedItems, likedItems, unratedItems, watchedOf, List.mem_filter,
        ratingGE4, ratingFalsy, hr]

/-- Items exercising every bucket: rated 5, rated 3, rated 2, watched
unrated, and unwatched. -/
def exC6 : List Item :=
  [{ baseItem with tmdbId := 1, title := "A", watched := true, rating := some 5 },
   { baseItem with tmdbId := 2, title := "B", watched := true, rating := some 3 },
   { baseItem with tmdbId := 3, title := "C", watched := true, rating := some 2 },
   { baseItem with tmdbId := 4, title := "D", watched := true },
   { baseItem with tmdbId := 5, title := "E" }]

/-- C6 witness: the watched-unrated bucket equation at the concrete item
list. -/
theorem tasteProfile_buckets_spec_witness :
    watchedUnrated exC6 =
      (exC6.filter (fun i => i.watched && i.rating.isNone)).map (fun i => i.title) :=
  (tasteProfile_buckets_spec exC6 (by decide)).2.2.2.1

/-! ## Genre-score accumulation lemmas (towards C4 and C9) -/

/-- In-place update of the entry holding a key. -/
def updKey (g : String) (w : Int) (q : String × Int) : String × Int :=
  if q.1 = g then (q.1, q.2 + w) else q

/-- Bumping an absent key appends it. -/
theorem bump_not_mem (acc : List (String × Int)) (g : String) (w : Int)
    (h : g ∉ acc.map Prod.fst) : bump acc g w = acc ++ [(g, w)] := by
  induction acc with
  | nil => rfl
  | cons q rest ih =>
    obtain ⟨g', v⟩ := q
    simp only [List.map_cons, List.mem_cons, not_or] at h
    rw [bump, if_neg (fun he => h.1 he.symm), ih h.2]
    rfl

/-- Updating a key absent from the table changes nothing. -/
theorem map_updKey_not_mem (acc : List (String × Int)) (g : String) (w : Int)
    (h : g ∉ acc.map Prod.fst) : acc.map (updKey g w) = acc := by
  induction acc with
  | nil => rfl
  | cons q rest ih =>
    simp only [List.map_cons, List.mem_cons, not_or] at h
    rw [List.map_cons, ih h.2]
    have hq : ¬(q.1 = g) := fun he => h.1 he.symm
    simp [updKey, hq]

/-- Bumping a present key of a duplicate-free table updates it in place. -/
theorem bump_mem (acc : List (String × Int)) (g : String) (w : Int)
    (hnd : (acc.map Prod.fst).Nodup) (hmem : g ∈ acc.map Prod.fst) :
    bump acc g w = acc.map (updKey g w) := by
  induction acc with
  | nil => simp at hmem
  | cons q rest ih =>
    obtain ⟨g', v⟩ := q
    simp only [List.map_cons, List.nodup_cons] at hnd
    by_cases he : g' = g
    · subst he
      rw [bump, if_pos rfl, List.map_cons]
      rw [map_updKey_not_mem rest g' w hnd.1]
      simp [updKey]
    · rw [bump, if_neg he, List.map_cons]
      have hmem' : g ∈ rest.map Prod.fst := by
        rcases List.mem_cons.mp hmem with h1 | h1
        · exact absurd h1.symm he
        · exact h1
      rw [ih hnd.2 hmem']
      simp [updKey, he]

/-- The empty stream contributes nothing to any key. -/
theorem sumKey_nil (g : String) : sumKey g [] = 0 := rfl

/-- Peeling one contribution off the stream. -/
theorem sumKey_cons (x g : String) (w : Int) (ps : List (String × Int)) :
    sumKey x ((g, w) :: ps) = (if g = x then w else 0) + sumKey x ps := by
  by_cases h : g = x <;> simp [sumKey, List.filter_cons, h]

/-- Key contributions split over concatenation. -/
theorem sumKey_append (x : String) (a b : List (String × Int)) :
    sumKey x (a ++ b) = sumKey x a + sumKey x b := by
  simp [sumKey, List.filter_append]

/-- `firstSeen` only consults the seen list through membership. -/
theorem firstSeen_congr (l : List String) :
    ∀ s₁ s₂ : List String, (∀ x, x ∈ s₁ ↔ x ∈ s₂) → firstSeen s₁ l = firstSeen s₂ l := by
  induction l with
  | nil => intro s₁ s₂ _; rfl
  | cons g gs ih =>
    intro s₁ s₂ hs
    simp only [firstSeen]
    by_cases hg : g ∈ s₁
    · rw [if_pos hg, if_pos ((hs g).mp hg), ih s₁ s₂ hs]
    · rw [if_neg hg, if_neg (fun hh => hg ((hs g).mpr hh))]
      rw [ih (g :: s₁) (g :: s₂) (by intro x; simp [hs x])]

/-- Membership in the deduplicated key list. -/
theorem mem_firstSeen (x : String) (l : List String) :
    ∀ s : List String, x ∈ firstSeen s l ↔ x ∈ l ∧ x ∉ s := by
  induction l with
  | nil => intro s; simp [firstSeen]
  | cons g gs ih =>
    intro s
    simp only [firstSeen]
    by_cases hg : g ∈ s
    · rw [if_pos hg, ih]
      constructor
      · rintro ⟨hx, hxs⟩
        exact ⟨List.mem_cons_of_mem g hx, hxs⟩
      · rintro ⟨hx, hxs⟩
        rcases List.mem_cons.mp hx with rfl | hx
        · exact absurd hg hxs
        · exact ⟨hx, hxs⟩
    · rw [if_neg hg]
      by_cases hxg : x = g
      · subst hxg
        simp [hg]
      · simp only [List.mem_cons, hxg, false_or]
        rw [ih (g :: s)]
        simp [hxg]

/-- The genre-score accumulation loop, started from any duplicate-free table,
computes `combineAcc`: existing entries grow by their remaining contributions
and unseen keys are appended in first-seen order with their total
contributions. -/
theorem foldl_bump_eq (pairs : List (String × Int)) :
    ∀ acc : List (String × Int), (acc.map Prod.fst).Nodup →
      List.foldl (fun a p => bump a p.1 p.2) acc pairs = combineAcc acc pairs := by
  induction pairs with
  | nil =>
    intro acc hnd
    simp [combineAcc, firstSeen, sumKey]
  | cons p ps ih =>
    obtain ⟨g, w⟩ := p
    intro acc hnd
    rw [List.foldl_cons]
    by_cases hmem : g ∈ acc.map Prod.fst
    · rw [show bump acc g w = acc.map (updKey g w) from bump_mem acc g w hnd hmem]
      have hkeys : (acc.map (updKey g w)).map Prod.fst = acc.map Prod.fst := by
        rw [List.map_map]
        apply List.map_congr_left
        intro q _
        by_cases hq : q.1 = g <;> simp [updKey, hq, Function.comp]
      rw [ih _ (by rw [hkeys]; exact hnd)]
      unfold combineAcc
      rw [hkeys]
      have hpart1 : (acc.map (updKey g w)).map (fun q => (q.1, q.2 + sumKey q.1 ps)) =
          acc.map (fun q => (q.1, q.2 + sumKey q.1 ((g, w) :: ps))) := by
        rw [List.map_map]
        apply List.map_congr_left
        intro q _
        by_cases hq : q.1 = g
        · simp only [Function.comp, updKey, if_pos hq, sumKey_cons]
          rw [if_pos hq.symm]
          simp [add_assoc]
        · simp only [Function.comp, updKey, if_neg hq, sumKey_cons]
          rw [if_neg (fun he => hq he.symm), zero_add]
      have hpart2 : (firstSeen (acc.map Prod.fst) (((g, w) :: ps).map Prod.fst)).map
            (fun x => (x, sumKey x ((g, w) :: ps))) =
          (firstSeen (acc.map Prod.fst) (ps.map Prod.fst)).map
            (fun x => (x, sumKey x ps)) := by
        rw [List.map_cons]
        rw [show firstSeen (acc.map Prod.fst) (g :: ps.map Prod.fst) =
            firstSeen (acc.map Prod.fst) (ps.map Prod.fst) from by
          simp only [firstSeen]
          rw [if_pos hmem]]
        apply List.map_congr_left
        intro x hx
        have hne : x ∉ acc.map Prod.fst := ((mem_firstSeen x _ _).mp hx).2
        have hgx : ¬(g = x) := fun he => hne (he ▸ hmem)
        rw [sumKey_cons, if_neg hgx, zero_add]
      rw [hpart1, hpart2]
    · rw [bump_not_mem acc g w hmem]
      have hnd2 : (((acc ++ [(g, w)]).map Prod.fst)).Nodup := by
        simp [List.nodup_append, hnd, hmem]
      rw [ih _ hnd2]
      unfold combineAcc
      have eA : (acc ++ [(g, w)]).map (fun q => (q.1, q.2 + sumKey q.1 ps)) =
          acc.map (fun q => (q.1, q.2 + sumKey q.1 ps)) ++ [(g, w + sumKey g ps)] := by
        simp [List.map_append]
      have eB : acc.map (fun q => (q.1, q.2 + sumKey q.1 ((g, w) :: ps))) =
          acc.map (fun q => (q.1, q.2 + sumKey q.1 ps)) := by
        apply List.map_congr_left
        intro q hq
        have hqg : ¬(g = q.1) := by
          intro he
          exact hmem (he ▸ List.mem_map_of_mem Prod.fst hq)
        rw [sumKey_cons, if_neg hqg, zero_add]
      have eKeys : (acc ++ [(g, w)]).map Prod.fst = acc.map Prod.fst ++ [g] := by simp
      have eD : firstSeen (acc.map Prod.fst ++ [g]) (ps.map Prod.fst) =
          firstSeen (g :: acc.map Prod.fst) (ps.map Prod.fst) := by
        apply firstSeen_congr
        intro x
        simp [or_comm]
      have eC : firstSeen (acc.map Prod.fst) (((g, w) :: ps).map Prod.fst) =
          g :: firstSeen (g :: acc.map Prod.fst) (ps.map Prod.fst) := by
        rw [List.map_cons]
        simp only [firstSeen]
        rw [if_neg hmem]
      have eE : (firstSeen (g :: acc.map Prod.fst) (ps.map Prod.fst)).map
            (fun x => (x, sumKey x ((g, w) :: ps))) =
          (firstSeen (g :: acc.map Prod.fst) (ps.map Prod.fst)).map
            (fun x => (x, sumKey x ps)) := by
        apply List.map_congr_left
        intro x hx
        have hxs : x ∉ g :: acc.map Prod.fst := ((mem_firstSeen x _ _).mp hx).2
        have hgx : ¬(g = x) := fun he => hxs (he ▸ List.mem_cons_self g _)
        rw [sumKey_cons, if_neg hgx, zero_add]
      rw [eKeys, eA, eB, eD, eC, List.map_cons, eE]
      rw [sumKey_cons, if_pos rfl]
      simp [List.append_assoc]

/-- The genre-score table, closed form: keys in first-seen order, each with
its total contribution from the pair stream. -/
theorem genreScoreList_raw (items : List Item) :
    genreScoreList items =
      (firstSeen [] ((genrePairs items).map Prod.fst)).map
        (fun g => (g, sumKey g (genrePairs items))) := by
  unfold genreScoreList
  rw [foldl_bump_eq _ [] (by simp)]
  simp [combineAcc]

/-- Contribution of one item's genre list: its weight if the genre occurs
(genre lists without duplicates), nothing otherwise. -/
theorem sumKey_map_const (g : String) (w : Int) :
    ∀ gs : List String, gs.Nodup →
      sumKey g (gs.map (fun x => (x, w))) = if g ∈ gs then w else 0 := by
  intro gs
  induction gs with
  | nil => intro _; simp [sumKey]
  | cons x xs ih =>
    intro hnd
    rcases List.nodup_cons.mp hnd with ⟨hx, hnd2⟩
    rw [List.map_cons, sumKey_cons, ih hnd2]
    by_cases hxg : x = g
    · subst hxg
      rw [if_pos rfl, if_neg hx, if_pos (List.mem_cons_self x xs)]
      ring
    · rw [if_neg hxg]
      by_cases hg : g ∈ xs
      · rw [if_pos hg, if_pos (List.mem_cons_of_mem x hg), zero_add]
      · rw [if_neg hg, zero_add, if_neg (by
          intro hmem
          rcases List.mem_cons.mp hmem with he | he
          · exact hxg he.symm
          · exact hg he)]

/-- Total contribution of a key over a flattened pair stream equals the sum of
the weights of the items carrying that key. -/
theorem sumKey_flatMap (g : String) (l : List Item) (hnd : ∀ i ∈ l, i.genres.Nodup) :
    sumKey g (l.flatMap (fun i => i.genres.map (fun x => (x, ratingWeight i.rating)))) =
      ((l.filter (fun i => g ∈ i.genres)).map (fun i => ratingWeight i.rating)).sum := by
  induction l with
  | nil => simp [sumKey]
  | cons i l ih =>
    rw [List.flatMap_cons, sumKey_append, sumKey_map_const g _ _ (hnd i (by simp))]
    rw [ih (fun j hj => hnd j (List.mem_cons_of_mem i hj))]
    rw [List.filter_cons]
    by_cases hg : g ∈ i.genres
    · simp [hg]
    · simp [hg]

/-- The code's default weight agrees with the specification's whenever the
rating is not the unattainable number 0. -/
theorem ratingWeight_eq_specWeight (r : Option Int) (h : r ≠ some 0) :
    ratingWeight r = specWeight r := by
  cases r with
  | none => rfl
  | some v =>
    have : ¬(v = 0) := fun he => h (by rw [he])
    simp [ratingWeight, specWeight, this]

/-- The genre-score table is exactly the association list the specification
describes: first-seen genres of watched items, each scored by the sum of its
carriers' ratings with unrated items contributing 3. -/
theorem genreScoreList_eq_specAssoc (items : List Item)
    (h0 : ∀ i ∈ items, i.rating ≠ some 0) (hnd : ∀ i ∈ items, i.genres.Nodup) :
    genreScoreList items = specAssoc items := by
  rw [genreScoreList_raw]
  unfold specAssoc
  apply List.map_congr_left
  intro g _
  have hw : ∀ i ∈ watchedOf items, i.genres.Nodup := by
    intro i hi
    exact hnd i (List.mem_filter.mp hi).1
  rw [show genrePairs items =
      (watchedOf items).flatMap
        (fun i => i.genres.map (fun x => (x, ratingWeight i.rating))) from rfl]
  rw [sumKey_flatMap g _ hw]
  unfold specScore
  congr 1
  apply congrArg
  apply List.map_congr_left
  intro i hi
  have : i.rating ≠ some 0 :=
    h0 i (List.mem_filter.mp (List.mem_filter.mp hi).1).1
  exact ratingWeight_eq_specWeight _ this

/-! ## Stable descending sort lemmas -/

/-- Inserting permutes to consing. -/
theorem insertDesc_perm (x : String × Int) (l : List (String × Int)) :
    (insertDesc x l).Perm (x :: l) := by
  induction l with
  | nil => exact List.Perm.refl _
  | cons y ys ih =>
    unfold insertDesc
    by_cases h : x.2 < y.2
    · rw [if_pos h]
      exact (ih.cons y).trans (List.Perm.swap x y ys)
    · rw [if_neg h]

/-- The sort permutes its input. -/
theorem sortDesc_perm (l : List (String × Int)) : (sortDesc l).Perm l := by
  induction l with
  | nil => exact List.Perm.refl _
  | cons x xs ih =>
    exact (insertDesc_perm x (sortDesc xs)).trans (ih.cons x)

/-- Inserting into a descending list keeps it descending. -/
theorem insertDesc_sorted (x : String × Int) (l : List (String × Int))
    (h : List.Pairwise (fun a b : String × Int => b.2 ≤ a.2) l) :
    List.Pairwise (fun a b : String × Int => b.2 ≤ a.2) (insertDesc x l) := by
  induction l with
  | nil => simp [insertDesc]
  | cons y ys ih =>
    rcases List.pairwise_cons.mp h with ⟨hy, hys⟩
    unfold insertDesc
    by_cases hlt : x.2 < y.2
    · rw [if_pos hlt]
      refine List.pairwise_cons.mpr ⟨?_, ih hys⟩
      intro z hz
      rcases List.mem_cons.mp ((insertDesc_perm x ys).mem_iff.mp hz) with rfl | hz
      · exact le_of_lt hlt
      · exact hy z hz
    · rw [if_neg hlt]
      have hyx : y.2 ≤ x.2 := le_of_not_lt hlt
      refine List.pairwise_cons.mpr ⟨?_, h⟩
      intro z hz
      rcases List.mem_cons.mp hz with rfl | hz
      · exact hyx
      · exact le_trans (hy z hz) hyx

/-- The sort output is descending by score. -/
theorem sortDesc_sorted (l : List (String × Int)) :
    List.Pairwise (fun a b : String × Int => b.2 ≤ a.2) (sortDesc l) := by
  induction l with
  | nil => simp [sortDesc]
  | cons x xs ih => exact insertDesc_sorted x (sortDesc xs) ih

/-- Insertion is stable: restricted to any one score, the list is
unchanged except for the new element leading when it carries that score. -/
theorem filter_insertDesc (x : String × Int) (l : List (String × Int)) (s : Int) :
    (insertDesc x l).filter (fun q => q.2 = s) =
      if x.2 = s then x :: l.filter (fun q => q.2 = s)
      else l.filter (fun q => q.2 = s) := by
  induction l with
  | nil =>
    unfold insertDesc
    by_cases hx : x.2 = s <;> simp [List.filter_cons, hx]
  | cons y ys ih =>
    unfold insertDesc
    by_cases hlt : x.2 < y.2
    · rw [if_pos hlt]
      by_cases hx : x.2 = s
      · have hy : ¬(y.2 = s) := by omega
        simp [List.filter_cons, ih, hx, hy]
      · simp [List.filter_cons, ih, hx]
    · rw [if_neg hlt]
      by_cases hx : x.2 = s <;> simp [List.filter_cons, hx]

/-- The sort is stable: restricted to any one score, the output lists the
input's entries of that score in their original order. -/
theorem filter_sortDesc (l : List (String × Int)) (s : Int) :
    (sortDesc l).filter (fun q => q.2 = s) = l.filter (fun q => q.2 = s) := by
  induction l with
  | nil => rfl
  | cons x xs ih =>
    rw [show sortDesc (x :: xs) = insertDesc x (sortDesc xs) from rfl]
    rw [filter_insertDesc]
    by_cases hx : x.2 = s <;> simp [List.filter_cons, hx, ih]

/-! ## C4 -/

/-- The three watched items of the specification's genre-ranking example. -/
def exC4 : List Item :=
  [{ baseItem with tmdbId := 1, title := "M1", watched := true, rating := some 5
                   genres := ["Drama"] },
   { baseItem with tmdbId := 2, title := "M2", watched := true, rating := some 3
                   genres := ["Drama"] },
   { baseItem with tmdbId := 3, title := "M3", watched := true, rating := some 4
                   genres := ["Comedy"] }]

/-- C4: the genre-score table is exactly the specification's association list
(first-seen genre order, each genre scored by the sum of its watched carriers'
ratings with unrated items weighing 3); `topGenres` is the head names of the
first eight entries of the stable descending sort of that list, where the sort
is a permutation, descending by score, and keeps equal-score entries in input
(first-seen) order; and the concrete example scores Drama 8, Comedy 4 with
`topGenres = [Drama, Comedy]`.  Ratings are null or 1–5 and genre lists are
duplicate-free, per the data model. -/
theorem topGenres_spec (items : List Item)
    (h0 : ∀ i ∈ items, i.rating ≠ some 0) (hnd : ∀ i ∈ items, i.genres.Nodup) :
    genreScoreList items = specAssoc items
    ∧ topGenres items = ((sortDesc (specAssoc items)).take 8).map Prod.fst
    ∧ (∀ l : List (String × Int),
        (sortDesc l).Perm l
        ∧ List.Pairwise (fun a b : String × Int => b.2 ≤ a.2) (sortDesc l)
        ∧ (∀ s : Int, (sortDesc l).filter (fun q => q.2 = s) =
            l.filter (fun q => q.2 = s)))
    ∧ List.lookup "Drama" (genreScoreList exC4) = some 8
    ∧ List.lookup "Comedy" (genreScoreList exC4) = some 4
    ∧ topGenres exC4 = ["Drama", "Comedy"] := by
  refine ⟨genreScoreList_eq_specAssoc items h0 hnd, ?_, ?_, by decide, by decide, by decide⟩
  · unfold topGenres
    rw [genreScoreList_eq_specAssoc items h0 hnd]
  · intro l
    exact ⟨sortDesc_perm l, sortDesc_sorted l, fun s => filter_sortDesc l s⟩

/-- C4 witness: the concrete example's ranking. -/
theorem topGenres_spec_witness : topGenres exC4 = ["Drama", "Comedy"] :=
  (topGenres_spec exC4 (by decide) (by decide)).2.2.2.2.2

/-! ## C9 -/

/-- A watched item rated 3 carrying genre A. -/
def exTie1 : Item :=
  { baseItem with tmdbId := 1, title := "T1", watched := true, rating := some 3
                  genres := ["A"] }

/-- A watched item rated 3 carrying genre B. -/
def exTie2 : Item :=
  { baseItem with tmdbId := 2, title := "T2", watched := true, rating := some 3
                  genres := ["B"] }

/-- C9: the claim fails — permuting the input changes `topGenres` when scores
tie, because the first-seen tie-break depends on input order.  Two tied
single-genre items swapped reverse the ranking. -/
theorem topGenres_not_perm_invariant :
    List.Perm [exTie1, exTie2] [exTie2, exTie1] ∧
    topGenres [exTie1, exTie2] ≠ topGenres [exTie2, exTie1] := by
  constructor
  · exact List.Perm.swap exTie2 exTie1 []
  · decide

/-- C9 (amended): permuting the input preserves every genre's accumulated
score (the score table has the same entries up to order) and permutes the
loved, liked, unrated and watchlist selections, preserving their membership;
only the order-sensitive parts of `topGenres` (tie order, cutoff) may
change. -/
theorem profile_perm_invariance :
    ∀ l l' : List Item, l.Perm l' →
      (∀ (g : String) (s : Int), (g, s) ∈ genreScoreList l ↔ (g, s) ∈ genreScoreList l')
      ∧ (lovedItems l).Perm (lovedItems l')
      ∧ (likedItems l).Perm (likedItems l')
      ∧ (unratedItems l).Perm (unratedItems l')
      ∧ (watchlist l).Perm (watchlist l') := by
  intro l l' hp
  have hw : (watchedOf l).Perm (watchedOf l') := hp.filter _
  have hpairs : (genrePairs l).Perm (genrePairs l') := hw.flatMap_right _
  have hsum : ∀ g : String, sumKey g (genrePairs l) = sumKey g (genrePairs l') := by
    intro g
    unfold sumKey
    exact ((hpairs.filter _).map _).sum_eq
  have hchar : ∀ (items : List Item) (g : String) (s : Int),
      (g, s) ∈ genreScoreList items ↔
        g ∈ (genrePairs items).map Prod.fst ∧ s = sumKey g (genrePairs items) := by
    intro items g s
    rw [genreScoreList_raw]
    constructor
    · intro h
      rcases List.mem_map.mp h with ⟨x, hx, he⟩
      have h1 : x = g := congrArg Prod.fst he
      have h2 : sumKey x (genrePairs items) = s := congrArg Prod.snd he
      subst h1
      exact ⟨((mem_firstSeen x _ _).mp hx).1, h2.symm⟩
    · rintro ⟨hg, rfl⟩
      exact List.mem_map.mpr ⟨g, (mem_firstSeen g _ []).mpr ⟨hg, by simp⟩, rfl⟩
  refine ⟨?_, hw.filter _, hw.filter _, hw.filter _, (hp.filter _).map _⟩
  intro g s
  rw [hchar l, hchar l', hsum g, (hpairs.map Prod.fst).mem_iff]

/-- C9 witness: the loved selections of the two-item swap are permutations of
one another. -/
theorem profile_perm_invariance_witness :
    (lovedItems [exTie1, exTie2]).Perm (lovedItems [exTie2, exTie1]) :=
  (profile_perm_invariance [exTie1, exTie2] [exTie2, exTie1]
    (List.Perm.swap exTie2 exTie1 [])).2.1

/-! ## C8 -/

/-- A record with a present catalog score but missing genres, so it is
selected for backfill. -/
def c8item : Item :=
  { baseItem with tmdbId := 9, tmdbRating := some 70, genres := [], genreIds := [5]
                  releaseDate := some none }

/-- A catalog detail carrying a fresh score and genres for that record. -/
def c8details : Details :=
  { tmdbRating := some 80, genres := ["X"], genreIds := [5], releaseDate := some none }

/-- The fetch returning that detail. -/
def c8fetch : Int → Except Unit Details := fun _ => .ok c8details

/-- C8: the claim fails — backfill does not apply only the missing fields.  A
record selected because its genres are missing also has its already-present
catalog score overwritten by the fetched detail's score. -/
theorem backfill_overwrites_present_fields :
    needsBackfill c8item = true ∧ c8item.tmdbRating = some 70 ∧
    (backfillRun c8fetch [c8item]).map (fun i => i.tmdbRating) = [some 80] := by
  decide

/-- C8 (amended): backfill selects exactly the records missing a descriptive
field (null catalog score, empty genres, undefined release date, or empty
genre codes); for each selected record whose detail fetch succeeds, it patches
every descriptive field the detail provides — score when non-null, genre
lists when non-empty, release date when defined — whether or not that field
was missing, leaves unprovided descriptive fields and all user-owned fields
unchanged, and leaves unselected records and records whose fetch throws
untouched. -/
theorem backfill_patch_spec :
    ∀ (fetch : Int → Except Unit Details) (items : List Item),
      backfillRun fetch items = items.map (backfillStep fetch)
      ∧ (∀ i : Item, needsBackfill i = false → backfillStep fetch i = i)
      ∧ (∀ i : Item, fetch i.tmdbId = .error () → backfillStep fetch i = i)
      ∧ (∀ (i : Item) (d : Details), needsBackfill i = true → fetch i.tmdbId = .ok d →
          (backfillStep fetch i).tmdbRating =
            (match d.tmdbRating with | some v => some v | none => i.tmdbRating)
          ∧ (backfillStep fetch i).genres = (if d.genres.isEmpty then i.genres else d.genres)
          ∧ (backfillStep fetch i).genreIds =
              (if d.genreIds.isEmpty then i.genreIds else d.genreIds)
          ∧ (backfillStep fetch i).releaseDate =
              (match d.releaseDate with | some x => some x | none => i.releaseDate)
          ∧ (backfillStep fetch i).watched = i.watched
          ∧ (backfillStep fetch i).watchedAt = i.watchedAt
          ∧ (backfillStep fetch i).rating = i.rating
          ∧ (backfillStep fetch i).notes = i.notes)
      ∧ (∀ i : Item, needsBackfill i =
          (i.tmdbRating.isNone || i.genres.isEmpty || i.releaseDate.isNone ||
            i.genreIds.isEmpty)) := by
  intro fetch items
  refine ⟨rfl, ?_, ?_, ?_, fun i => rfl⟩
  · intro i h
    unfold backfillStep
    rw [h]
    rfl
  · intro i h
    unfold backfillStep
    rw [h]
    split <;> rfl
  · intro i d h hf
    unfold backfillStep
    rw [h, hf]
    simp only
    have happly :
        (applyUpdates i (computeUpdates d)).tmdbRating =
            (match d.tmdbRating with | some v => some v | none => i.tmdbRating)
          ∧ (applyUpdates i (computeUpdates d)).genres =
              (if d.genres.isEmpty then i.genres else d.genres)
          ∧ (applyUpdates i (computeUpdates d)).genreIds =
              (if d.genreIds.isEmpty then i.genreIds else d.genreIds)
          ∧ (applyUpdates i (computeUpdates d)).releaseDate =
              (match d.releaseDate with | some x => some x | none => i.releaseDate)
          ∧ (applyUpdates i (computeUpdates d)).watched = i.watched
          ∧ (applyUpdates i (computeUpdates d)).watchedAt = i.watchedAt
          ∧ (applyUpdates i (computeUpdates d)).rating = i.rating
          ∧ (applyUpdates i (computeUpdates d)).notes = i.notes := by
      refine ⟨rfl, ?_, ?_, rfl, rfl, rfl, rfl, rfl⟩
      · unfold applyUpdates computeUpdates
        by_cases hg : d.genres.isEmpty <;> simp [hg]
      · unfold applyUpdates computeUpdates
        by_cases hg : d.genreIds.isEmpty <;> simp [hg]
    by_cases he : updatesEmpty (computeUpdates d) = true
    · have h1 : d.tmdbRating = none := by
        have := he
        unfold updatesEmpty computeUpdates at this
        simp only [Bool.and_eq_true, Option.isNone_iff_eq_none] at this
        exact this.1.1.1
      have h2 : d.genres.isEmpty = true := by
        have := he
        unfold updatesEmpty computeUpdates at this
        simp only [Bool.and_eq_true, Option.isNone_iff_eq_none] at this
        rcases this with ⟨⟨⟨_, hg⟩, _⟩, _⟩
        by_cases hge : d.genres.isEmpty
        · exact hge
        · rw [if_neg (by simp [hge])] at hg
          exact absurd hg (by simp)
      have h3 : d.genreIds.isEmpty = true := by
        have := he
        unfold updatesEmpty computeUpdates at this
        simp only [Bool.and_eq_true, Option.isNone_iff_eq_none] at this
        rcases this with ⟨⟨⟨_, _⟩, hg⟩, _⟩
        by_cases hge : d.genreIds.isEmpty
        · exact hge
        · rw [if_neg (by simp [hge])] at hg
          exact absurd hg (by simp)
      have h4 : d.releaseDate = none := by
        have := he
        unfold updatesEmpty computeUpdates at this
        simp only [Bool.and_eq_true, Option.isNone_iff_eq_none] at this
        exact this.2
      rw [if_pos he]
      simp [h1, h2, h3, h4]
    · rw [if_neg he]
      exact happly

/-- C8 witness: the amended description at the concrete overwriting
scenario. -/
theorem backfill_patch_spec_witness :
    backfillRun c8fetch [c8item] = [c8item].map (backfillStep c8fetch) :=
  (backfill_patch_spec c8fetch [c8item]).1

end Cinemaic
